import Mathlib

/-!
Shallow embedding of the lopher logging library (log.go, pkg.go) and
verification of its specification.

The embedding models:
* the flag constants (`LFdate`, ..., `LFstdFlags`, `LFNone`);
* Go `time.Time` as a pair of wall-clock views (local and UTC), since the
  code only observes a timestamp through `Date`, `Clock`, `Nanosecond`
  after an optional `UTC()` conversion;
* `io.Writer` as a buffer of written strings together with the error the
  sink reports on a write;
* `fmt.Sprint` on variadic operands (spaces added between operands when
  neither is a string), `strings.Replace(s, newline, space, -1)` and
  `strings.TrimSpace` (Unicode white space);
* the `Log` struct with its methods and the package-level functions that
  forward to the default logger (global state is passed explicitly).
-/

namespace Lopher

/-- Flag constant `LFdate = 1 << 0` from log.go. -/
def LFdate : Nat := 1

/-- Flag constant `LFtime = 1 << 1` from log.go. -/
def LFtime : Nat := 2

/-- Flag constant `LFmicroseconds = 1 << 2` from log.go. -/
def LFmicroseconds : Nat := 4

/-- Flag constant `LFlongfile = 1 << 3` from log.go. -/
def LFlongfile : Nat := 8

/-- Flag constant `LFshortfile = 1 << 4` from log.go. -/
def LFshortfile : Nat := 16

/-- Flag constant `LFUTC = 1 << 5` from log.go. -/
def LFUTC : Nat := 32

/-- Flag constant `LFstdFlags = LFdate | LFtime | LFUTC | LFlongfile`. -/
def LFstdFlags : Nat := LFdate ||| LFtime ||| LFUTC ||| LFlongfile

/-- Flag constant `LFNone = 0`. -/
def LFNone : Nat := 0

/-- One wall-clock view of a timestamp: the fields observable through Go
`time.Time.Date`, `time.Time.Clock` and `time.Time.Nanosecond`. -/
structure DateTime where
  year : Int
  month : Nat
  day : Nat
  hour : Nat
  minute : Nat
  second : Nat
  nanosecond : Nat
deriving DecidableEq

/-- A Go `time.Time`, reduced to what the logger observes: its wall clock in
its own location (`wall`) and its wall clock in UTC (`utcWall`). -/
structure Time where
  wall : DateTime
  utcWall : DateTime
deriving DecidableEq

/-- Go `time.Time.UTC`: the same instant viewed in UTC, so both views become
the UTC wall clock. -/
def Time.UTC (t : Time) : Time := ⟨t.utcWall, t.utcWall⟩

/-- Suffix of the character list strictly after its last slash, `none` when it
contains no slash. -/
def afterLastSlash : List Char → Option (List Char)
  | [] => none
  | c :: cs =>
    match afterLastSlash cs with
    | some r => some r
    | none => if c = '/' then some cs else none

/-- The short-file reduction loop of `fmtHeader` in log.go: scan indices from
`len(file)-1` down to `1` (index 0 excluded) and keep the part after the first
slash found; the string is unchanged when no slash is found there. -/
def shortName (file : String) : String :=
  match file.data with
  | [] => file
  | _ :: rest =>
    match afterLastSlash rest with
    | some r => String.mk r
    | none => file

/-- `fmtHeader` from log.go: renders the flag-controlled prefix from the flag
set, the caller-location string and the timestamp. -/
def fmtHeader (flags : Nat) (file : String) (t : Time) : String :=
  if flags = 0 then ""
  else
    let t := if flags &&& LFUTC ≠ 0 then t.UTC else t
    let datePart :=
      if flags &&& (LFdate ||| LFtime ||| LFmicroseconds) ≠ 0 then
        toString t.wall.year ++ "/" ++ toString t.wall.month ++ "/" ++
          toString t.wall.day ++ " " ++
          (if flags &&& LFtime ≠ 0 then
            toString t.wall.hour ++ ":" ++ toString t.wall.minute ++ ":" ++
              toString t.wall.second ++
              (if flags &&& LFmicroseconds ≠ 0 then
                "." ++ toString (t.wall.nanosecond / 1000)
              else "") ++ " "
          else "")
      else ""
    let filePart :=
      if flags &&& (LFshortfile ||| LFlongfile) ≠ 0 then
        (if flags &&& LFshortfile ≠ 0 then shortName file else file) ++ " "
      else ""
    datePart ++ filePart

/-- A variadic operand passed to the logger: either a Go string, or any other
value together with its default `%v` rendering. -/
inductive GoVal where
  | str : String → GoVal
  | val : String → GoVal
deriving DecidableEq

/-- Default textual representation of an operand. -/
def GoVal.render : GoVal → String
  | .str s => s
  | .val s => s

/-- Whether the operand is a Go string (controls `fmt.Sprint` spacing). -/
def GoVal.isStringOperand : GoVal → Bool
  | .str _ => true
  | .val _ => false

/-- Go `fmt.Sprint`: operands are rendered and concatenated, with a space
added between two consecutive operands when neither is a string. -/
def goSprint : List GoVal → String
  | [] => ""
  | [a] => a.render
  | a :: b :: rest =>
    a.render ++ (if a.isStringOperand || b.isStringOperand then "" else " ") ++
      goSprint (b :: rest)

/-- Go `strings.Replace(s, newline, space, -1)` for the single-character
pattern used in log.go: every newline character becomes a space. -/
def collapseNewlines (s : String) : String :=
  String.mk (s.data.map fun c => if c = '\n' then ' ' else c)

/-- Go `unicode.IsSpace`: the Unicode White_Space property. -/
def goIsSpace (c : Char) : Bool :=
  (0x09 ≤ c.val && c.val ≤ 0x0d) || c.val = 0x20 || c.val = 0x85 ||
    c.val = 0xa0 || c.val = 0x1680 ||
    (0x2000 ≤ c.val && c.val ≤ 0x200a) || c.val = 0x2028 || c.val = 0x2029 ||
    c.val = 0x202f || c.val = 0x205f || c.val = 0x3000

/-- Go `strings.TrimSpace`: remove leading and trailing white space. -/
def trimSpace (s : String) : String :=
  String.mk (((s.data.dropWhile goIsSpace).reverse.dropWhile goIsSpace).reverse)

/-- An `io.Writer` sink: the lines written so far, and the error the sink
reports on each write (`none` means every write succeeds). -/
structure Writer where
  buffer : List String
  writeErr : Option String
deriving DecidableEq

/-- A write to the sink: the payload is appended and the sink's error (if
any) is returned, as the `err` result of `fmt.Fprintf`. -/
def Writer.write (w : Writer) (s : String) : Writer × Option String :=
  ({ w with buffer := w.buffer ++ [s] }, w.writeErr)

/-- `os.Stdout` as an initially empty, always succeeding sink. -/
def osStdout : Writer := ⟨[], none⟩

/-- The `Log` struct from log.go: embedded writer, `DebugMode`, `Flags`.
The mutex only serializes access and is not part of the sequential model. -/
structure Log where
  writer : Writer
  DebugMode : Bool
  Flags : Nat
deriving DecidableEq

/-- `New` from log.go. -/
def New (out : Writer) (debug : Bool) (flags : Nat) : Log := ⟨out, debug, flags⟩

/-- `(*Log).SetFlags` from log.go. -/
def Log.SetFlags (l : Log) (f : Nat) : Log := { l with Flags := f }

/-- `(*Log).SetOutput` from log.go. -/
def Log.SetOutput (l : Log) (w : Writer) : Log := { l with writer := w }

/-- `(*Log).SetDebug` from log.go. -/
def Log.SetDebug (l : Log) (v : Bool) : Log := { l with DebugMode := v }

/-- The result of `runtime.Caller(2)`: source file, line, and whether the
resolution succeeded. This is environment input to the emit path. -/
structure CallerInfo where
  file : String
  line : Int
  ok : Bool
deriving DecidableEq

/-- The caller string built in `print`: `file:line` via `%s:%d`, with the
placeholder `???:0` when resolution failed. -/
def resolvedCaller (c : CallerInfo) : String :=
  (if c.ok then c.file else "???") ++ ":" ++ toString (if c.ok then c.line else 0)

/-- Go `%+v` applied to the `error` result of a write: `<nil>` for a nil
error, the error text otherwise. -/
def errPlusV : Option String → String
  | none => "<nil>"
  | some e => e

/-- The line assembled by `print` in log.go: header, `[level] `, the
newline-collapsed and trimmed `fmt.Sprint` of the operands, and a trailing
newline (`%s[%s] %+v` followed by a newline). -/
def Log.printLine (l : Log) (level : String) (v : List GoVal) (c : CallerInfo)
    (now : Time) : String :=
  let caller :=
    if l.Flags &&& (LFshortfile ||| LFlongfile) ≠ 0 then resolvedCaller c else ""
  let header := fmtHeader l.Flags caller now
  let args := collapseNewlines (goSprint v)
  header ++ "[" ++ level ++ "] " ++ trimSpace args ++ "\n"

/-- `(*Log).print` from log.go: writes the assembled line to the sink and
returns the wrapped `Could not write to output` error built from the write
error by `fmt.Errorf` (built even when the write succeeded). -/
def Log.print (l : Log) (level : String) (v : List GoVal) (c : CallerInfo)
    (now : Time) : Log × Option String :=
  let line := l.printLine level v c now
  let p := l.writer.write line
  ({ l with writer := p.1 },
    some ("Could not write to output: " ++ errPlusV p.2))

/-- `(*Log).Info` from log.go: prints at INFO level, discarding the error. -/
def Log.Info (l : Log) (v : List GoVal) (c : CallerInfo) (now : Time) : Log :=
  (l.print "INFO" v c now).1

/-- `(*Log).Infof` from log.go: `fmt.Sprintf` is an external pure function,
so the method is modelled on its result `msg`, passed as one string operand. -/
def Log.Infof (l : Log) (msg : String) (c : CallerInfo) (now : Time) : Log :=
  (l.print "INFO" [GoVal.str msg] c now).1

/-- `(*Log).Debug` from log.go: returns immediately when `DebugMode` is
false, otherwise prints at DEBUG level. -/
def Log.Debug (l : Log) (v : List GoVal) (c : CallerInfo) (now : Time) : Log :=
  if !l.DebugMode then l else (l.print "DEBUG" v c now).1

/-- `(*Log).Debugf` from log.go, on the `fmt.Sprintf` result `msg`. -/
def Log.Debugf (l : Log) (msg : String) (c : CallerInfo) (now : Time) : Log :=
  if !l.DebugMode then l else (l.print "DEBUG" [GoVal.str msg] c now).1

/-- `defaultLogger` from pkg.go: `New(os.Stdout, false, LFstdFlags)`. -/
def defaultLogger : Log := New osStdout false LFstdFlags

/-- Package-level `Info` from pkg.go, with the default logger state passed
explicitly. -/
def Info (s : Log) (v : List GoVal) (c : CallerInfo) (now : Time) : Log :=
  s.Info v c now

/-- Package-level `Infof` from pkg.go. -/
def Infof (s : Log) (msg : String) (c : CallerInfo) (now : Time) : Log :=
  s.Infof msg c now

/-- Package-level `Debug` from pkg.go. -/
def Debug (s : Log) (v : List GoVal) (c : CallerInfo) (now : Time) : Log :=
  s.Debug v c now

/-- Package-level `Debugf` from pkg.go. -/
def Debugf (s : Log) (msg : String) (c : CallerInfo) (now : Time) : Log :=
  s.Debugf msg c now

/-- Package-level `SetOutput` from pkg.go. -/
def SetOutput (s : Log) (w : Writer) : Log := s.SetOutput w

/-- Package-level `SetFlags` from pkg.go. -/
def SetFlags (s : Log) (f : Nat) : Log := s.SetFlags f

/-- Package-level `SetDebug` from pkg.go. -/
def SetDebug (s : Log) (b : Bool) : Log := s.SetDebug b

/-- The wall clock `fmtHeader` reads: the UTC view when the UTC bit is set,
the local view otherwise. -/
def zoneWall (flags : Nat) (t : Time) : DateTime :=
  if flags &&& LFUTC ≠ 0 then t.utcWall else t.wall

/-- The same instant with its clock-of-day and nanosecond fields replaced in
both views; the dates are untouched. -/
def Time.withClock (t : Time) (h mi s ns : Nat) : Time :=
  ⟨{ t.wall with hour := h, minute := mi, second := s, nanosecond := ns },
   { t.utcWall with hour := h, minute := mi, second := s, nanosecond := ns }⟩

/-- A concrete timestamp used in concrete evaluations. -/
def t0 : Time := ⟨⟨2009, 1, 23, 1, 23, 23, 0⟩, ⟨2009, 1, 23, 1, 23, 23, 0⟩⟩

/-- A concrete timestamp whose nanosecond field is 1000, so the microsecond
value is 1. -/
def t1 : Time :=
  ⟨⟨2009, 1, 23, 1, 23, 23, 1000⟩, ⟨2009, 1, 23, 1, 23, 23, 1000⟩⟩

/-- A concrete caller-resolution result. -/
def c0 : CallerInfo := ⟨"/a/b/c.go", 23, true⟩

end Lopher

namespace Lopher

/-! ### Shared helper lemmas -/

lemma lor_eq_zero_left {a b : Nat} (h : a ||| b = 0) : a = 0 := by
  apply Nat.eq_of_testBit_eq
  intro i
  have h2 := congrArg (fun x => Nat.testBit x i) h
  simp only [Nat.testBit_or, Nat.zero_testBit] at h2 ⊢
  cases hx : a.testBit i
  · rfl
  · rw [hx] at h2; simp at h2

lemma lor_eq_zero_right {a b : Nat} (h : a ||| b = 0) : b = 0 :=
  lor_eq_zero_left (by rwa [Nat.or_comm])

lemma and_lor_ne_zero_right {f a b : Nat} (h : f &&& b ≠ 0) : f &&& (a ||| b) ≠ 0 := by
  intro hz
  rw [Nat.and_or_distrib_left] at hz
  exact h (lor_eq_zero_right hz)

lemma and_lor_ne_zero_left {f a b : Nat} (h : f &&& a ≠ 0) : f &&& (a ||| b) ≠ 0 := by
  intro hz
  rw [Nat.and_or_distrib_left] at hz
  exact h (lor_eq_zero_left hz)

lemma ne_zero_of_and_ne_zero {f m : Nat} (h : f &&& m ≠ 0) : f ≠ 0 := by
  intro hz
  subst hz
  simp [Nat.zero_and] at h

lemma afterLastSlash_none {cs : List Char} (h : afterLastSlash cs = none) :
    '/' ∉ cs := by
  induction cs with
  | nil => simp
  | cons c cs ih =>
    intro hm
    rw [afterLastSlash] at h
    rcases hcs : afterLastSlash cs with _ | r
    · rw [hcs] at h
      simp only at h
      split at h
      · exact absurd h (by simp)
      · rcases List.mem_cons.mp hm with h1 | h2
        · exact absurd h1.symm (by assumption)
        · exact ih hcs h2
    · rw [hcs] at h
      simp at h

lemma afterLastSlash_spec {cs r : List Char} (h : afterLastSlash cs = some r) :
    ∃ pre, cs = pre ++ '/' :: r ∧ '/' ∉ r := by
  induction cs generalizing r with
  | nil => simp [afterLastSlash] at h
  | cons c cs ih =>
    rw [afterLastSlash] at h
    rcases hcs : afterLastSlash cs with _ | r2
    · rw [hcs] at h
      simp only at h
      split at h
      · rename_i hc
        obtain rfl : cs = r := by simpa using h
        exact ⟨[], by simp [hc], afterLastSlash_none hcs⟩
      · simp at h
    · rw [hcs] at h
      simp only at h
      obtain rfl : r2 = r := by simpa using h
      obtain ⟨pre, hpre, hnr⟩ := ih hcs
      exact ⟨c :: pre, by simp [hpre], hnr⟩

lemma afterLastSlash_isSome {cs : List Char} (h : '/' ∈ cs) :
    ∃ r, afterLastSlash cs = some r := by
  rcases hcs : afterLastSlash cs with _ | r
  · exact absurd h (afterLastSlash_none hcs)
  · exact ⟨r, rfl⟩

lemma digitChar_ne_newline (n : Nat) : Nat.digitChar n ≠ '\n' := by
  by_cases h : n < 16
  · interval_cases n <;> decide
  · unfold Nat.digitChar
    repeat rw [if_neg (by omega)]
    decide

lemma newline_notMem_toDigitsCore (b : Nat) :
    ∀ (fuel n : Nat) (acc : List Char), '\n' ∉ acc →
      '\n' ∉ Nat.toDigitsCore b fuel n acc := by
  intro fuel
  induction fuel with
  | zero => intro n acc h; simpa [Nat.toDigitsCore] using h
  | succ f ih =>
    intro n acc h
    rw [Nat.toDigitsCore]
    split
    · intro hm
      rcases List.mem_cons.mp hm with h1 | h2
      · exact digitChar_ne_newline _ h1.symm
      · exact h h2
    · apply ih
      intro hm
      rcases List.mem_cons.mp hm with h1 | h2
      · exact digitChar_ne_newline _ h1.symm
      · exact h h2

lemma newline_notMem_natRepr (n : Nat) : '\n' ∉ (toString n).data := by
  show '\n' ∉ (Nat.toDigits 10 n).asString.data
  show '\n' ∉ Nat.toDigits 10 n
  exact newline_notMem_toDigitsCore 10 _ _ _ (by simp)

lemma newline_notMem_intRepr (i : Int) : '\n' ∉ (toString i).data := by
  show '\n' ∉ (Int.repr i).data
  match i with
  | Int.ofNat m => exact newline_notMem_natRepr m
  | Int.negSucc m =>
    show '\n' ∉ (("-" : String) ++ m.succ.repr).data
    rw [String.data_append]
    intro hm
    rcases List.mem_append.mp hm with h1 | h2
    · simp at h1
    · exact newline_notMem_natRepr (m + 1) h2

lemma noNL_append {a b : String} (ha : '\n' ∉ a.data) (hb : '\n' ∉ b.data) :
    '\n' ∉ (a ++ b).data := by
  rw [String.data_append]
  intro hm
  rcases List.mem_append.mp hm with h | h
  · exact ha h
  · exact hb h

lemma noNL_collapseNewlines (s : String) : '\n' ∉ (collapseNewlines s).data := by
  intro hm
  rw [collapseNewlines] at hm
  rcases List.mem_map.mp hm with ⟨c, _, hc⟩
  by_cases h : c = '\n' <;> simp [h] at hc

lemma noNL_trimSpace {s : String} (h : '\n' ∉ s.data) : '\n' ∉ (trimSpace s).data := by
  intro hm
  apply h
  rw [trimSpace] at hm
  have hm2 : '\n' ∈ ((s.data.dropWhile goIsSpace).reverse.dropWhile goIsSpace).reverse := hm
  have hm3 := List.mem_reverse.mp hm2
  have hm4 := List.Sublist.mem hm3 (List.dropWhile_sublist goIsSpace)
  have hm5 := List.mem_reverse.mp hm4
  exact List.Sublist.mem hm5 (List.dropWhile_sublist goIsSpace)

lemma noNL_shortName {file : String} (h : '\n' ∉ file.data) :
    '\n' ∉ (shortName file).data := by
  rcases hd : file.data with _ | ⟨c, rest⟩
  · unfold shortName
    rw [hd]
    exact fun hm => h hm
  · unfold shortName
    rw [hd]
    simp only []
    rcases hr : afterLastSlash rest with _ | r
    · exact fun hm => h hm
    · simp only []
      obtain ⟨pre, hpre, -⟩ := afterLastSlash_spec hr
      intro hm
      apply h
      rw [hd, hpre]
      have hr2 : '\n' ∈ r := hm
      simp [hr2]

lemma noNL_resolvedCaller {c : CallerInfo} (h : '\n' ∉ c.file.data) :
    '\n' ∉ (resolvedCaller c).data := by
  rw [resolvedCaller]
  apply noNL_append
  · apply noNL_append
    · split
      · exact h
      · decide
    · decide
  · exact newline_notMem_intRepr _

lemma noNL_fmtHeader (flags : Nat) (file : String) (t : Time)
    (h : '\n' ∉ file.data) : '\n' ∉ (fmtHeader flags file t).data := by
  rw [fmtHeader]
  split
  · decide
  · repeat' (first | apply noNL_append | split)
    all_goals
      first
      | decide
      | exact h
      | exact noNL_shortName h
      | exact newline_notMem_natRepr _
      | exact newline_notMem_intRepr _

lemma printLine_split (l : Log) (level : String) (v : List GoVal) (c : CallerInfo)
    (now : Time) (hfile : '\n' ∉ c.file.data) (hlevel : '\n' ∉ level.data) :
    ∃ body, l.printLine level v c now = body ++ "\n" ∧ '\n' ∉ body.data := by
  refine ⟨_, rfl, ?_⟩
  apply noNL_append
  · apply noNL_append
    · apply noNL_append
      · apply noNL_append
        · apply noNL_fmtHeader
          split
          · exact noNL_resolvedCaller hfile
          · decide
        · decide
      · exact hlevel
    · decide
  · exact noNL_trimSpace (noNL_collapseNewlines _)

end Lopher

namespace Lopher

/-! ### Claim theorems -/

/-- C1: for a Logger whose flags are None, `Info(values...)` writes to the sink
exactly the line `[INFO] ` followed by the message and a single trailing
newline, where the message is the `fmt.Sprint` rendering of the values with
every embedded newline replaced by a space and surrounding white space
trimmed; in particular `Info("Hello World!")` and `Info("Hello World!\n")`
both produce the message `Hello World!`. -/
theorem claimC1 (l : Log) (v : List GoVal) (c : CallerInfo) (now : Time)
    (h : l.Flags = LFNone) :
    (l.Info v c now).writer.buffer =
        l.writer.buffer ++ ["[INFO] " ++ trimSpace (collapseNewlines (goSprint v)) ++ "\n"] ∧
      trimSpace (collapseNewlines (goSprint [GoVal.str "Hello World!"])) = "Hello World!" ∧
      trimSpace (collapseNewlines (goSprint [GoVal.str "Hello World!\n"])) = "Hello World!" := by
  refine ⟨?_, by decide, by decide⟩
  simp only [Log.Info, Log.print, Log.printLine, Writer.write, h, LFNone]
  norm_num [fmtHeader]
  apply String.ext
  simp [String.data_append]

/-- Witness for C1 at a concrete logger and input. -/
theorem claimC1_w :
    ((New osStdout false LFNone).Info [GoVal.str "Hello World!\n"] c0 t0).writer.buffer =
        osStdout.buffer ++
          ["[INFO] " ++ trimSpace (collapseNewlines (goSprint [GoVal.str "Hello World!\n"])) ++ "\n"] ∧
      trimSpace (collapseNewlines (goSprint [GoVal.str "Hello World!"])) = "Hello World!" ∧
      trimSpace (collapseNewlines (goSprint [GoVal.str "Hello World!\n"])) = "Hello World!" :=
  claimC1 (New osStdout false LFNone) [GoVal.str "Hello World!\n"] c0 t0 rfl

/-- C2: when the debug toggle is false, `Debug` and `Debugf` leave the logger
(and hence the sink) completely unchanged, while `Info` and `Infof` always
append a line to the sink. -/
theorem claimC2 (l : Log) (v : List GoVal) (msg : String) (c : CallerInfo) (now : Time) :
    (l.DebugMode = false → l.Debug v c now = l ∧ l.Debugf msg c now = l) ∧
      (∃ line, (l.Info v c now).writer.buffer = l.writer.buffer ++ [line]) ∧
      (∃ line, (l.Infof msg c now).writer.buffer = l.writer.buffer ++ [line]) := by
  refine ⟨fun h => ⟨?_, ?_⟩, ⟨_, rfl⟩, ⟨_, rfl⟩⟩
  · simp [Log.Debug, h]
  · simp [Log.Debugf, h]

/-- Witness for C2 at a concrete logger with the toggle disabled. -/
theorem claimC2_w :
    ((New osStdout false LFNone).DebugMode = false →
        (New osStdout false LFNone).Debug [GoVal.str "x"] c0 t0 = New osStdout false LFNone ∧
          (New osStdout false LFNone).Debugf "x" c0 t0 = New osStdout false LFNone) ∧
      (∃ line, ((New osStdout false LFNone).Info [GoVal.str "x"] c0 t0).writer.buffer =
          (New osStdout false LFNone).writer.buffer ++ [line]) ∧
      (∃ line, ((New osStdout false LFNone).Infof "x" c0 t0).writer.buffer =
          (New osStdout false LFNone).writer.buffer ++ [line]) :=
  claimC2 (New osStdout false LFNone) [GoVal.str "x"] "x" c0 t0

/-- C3: every call reaching the emit path makes `print` return a non-nil
wrapped `Could not write to output` error, even when the sink write succeeds
(a `<nil>` write error is still wrapped), and `Info`, `Infof`, `Debug`,
`Debugf` return only the updated state, discarding that error. -/
theorem claimC3 (l : Log) (level : String) (v : List GoVal) (msg : String)
    (c : CallerInfo) (now : Time) :
    (l.print level v c now).2 =
        some ("Could not write to output: " ++ errPlusV l.writer.writeErr) ∧
      (l.writer.writeErr = none →
        (l.print level v c now).2 = some "Could not write to output: <nil>") ∧
      l.Info v c now = (l.print "INFO" v c now).1 ∧
      l.Infof msg c now = (l.print "INFO" [GoVal.str msg] c now).1 ∧
      (l.DebugMode = true → l.Debug v c now = (l.print "DEBUG" v c now).1) ∧
      (l.DebugMode = true → l.Debugf msg c now = (l.print "DEBUG" [GoVal.str msg] c now).1) := by
  refine ⟨rfl, fun h => ?_, rfl, rfl, fun h => ?_, fun h => ?_⟩
  · simp [Log.print, Writer.write, h, errPlusV]
  · simp [Log.Debug, h]
  · simp [Log.Debugf, h]

/-- Witness for C3 at a concrete logger whose sink write succeeds. -/
theorem claimC3_w :
    ((New osStdout false LFNone).print "INFO" [GoVal.str "x"] c0 t0).2 =
        some ("Could not write to output: " ++ errPlusV (New osStdout false LFNone).writer.writeErr) ∧
      ((New osStdout false LFNone).writer.writeErr = none →
        ((New osStdout false LFNone).print "INFO" [GoVal.str "x"] c0 t0).2 =
          some "Could not write to output: <nil>") ∧
      (New osStdout false LFNone).Info [GoVal.str "x"] c0 t0 =
        ((New osStdout false LFNone).print "INFO" [GoVal.str "x"] c0 t0).1 ∧
      (New osStdout false LFNone).Infof "y" c0 t0 =
        ((New osStdout false LFNone).print "INFO" [GoVal.str "y"] c0 t0).1 ∧
      ((New osStdout false LFNone).DebugMode = true →
        (New osStdout false LFNone).Debug [GoVal.str "x"] c0 t0 =
          ((New osStdout false LFNone).print "DEBUG" [GoVal.str "x"] c0 t0).1) ∧
      ((New osStdout false LFNone).DebugMode = true →
        (New osStdout false LFNone).Debugf "y" c0 t0 =
          ((New osStdout false LFNone).print "DEBUG" [GoVal.str "y"] c0 t0).1) :=
  claimC3 (New osStdout false LFNone) "INFO" [GoVal.str "x"] "y" c0 t0

/-- C4: whenever the rendered input contains embedded newlines (and the
caller-location file has none, as is the case for `runtime.Caller` paths),
the line emitted by `Info`, `Infof`, `Debug` or `Debugf` consists of a
newline-free body followed by the single trailing terminator. -/
theorem claimC4 (l : Log) (v : List GoVal) (msg : String) (c : CallerInfo) (now : Time)
    (hfile : '\n' ∉ c.file.data) (hv : '\n' ∈ (goSprint v).data)
    (hmsg : '\n' ∈ msg.data) :
    (∃ body, (l.Info v c now).writer.buffer = l.writer.buffer ++ [body ++ "\n"] ∧
        '\n' ∉ body.data) ∧
      (∃ body, (l.Infof msg c now).writer.buffer = l.writer.buffer ++ [body ++ "\n"] ∧
        '\n' ∉ body.data) ∧
      (l.DebugMode = true →
        ∃ body, (l.Debug v c now).writer.buffer = l.writer.buffer ++ [body ++ "\n"] ∧
          '\n' ∉ body.data) ∧
      (l.DebugMode = true →
        ∃ body, (l.Debugf msg c now).writer.buffer = l.writer.buffer ++ [body ++ "\n"] ∧
          '\n' ∉ body.data) := by
  clear hv hmsg
  refine ⟨?_, ?_, fun hdm => ?_, fun hdm => ?_⟩
  · obtain ⟨body, hb, hn⟩ := printLine_split l "INFO" v c now hfile (by decide)
    exact ⟨body, by simp [Log.Info, Log.print, Writer.write, hb], hn⟩
  · obtain ⟨body, hb, hn⟩ :=
      printLine_split l "INFO" [GoVal.str msg] c now hfile (by decide)
    exact ⟨body, by simp [Log.Infof, Log.print, Writer.write, hb], hn⟩
  · obtain ⟨body, hb, hn⟩ := printLine_split l "DEBUG" v c now hfile (by decide)
    exact ⟨body, by simp [Log.Debug, Log.print, Writer.write, hdm, hb], hn⟩
  · obtain ⟨body, hb, hn⟩ :=
      printLine_split l "DEBUG" [GoVal.str msg] c now hfile (by decide)
    exact ⟨body, by simp [Log.Debugf, Log.print, Writer.write, hdm, hb], hn⟩

/-- Witness for C4 at a concrete logger and newline-containing input. -/
theorem claimC4_w :
    (∃ body, ((New osStdout true LFNone).Info [GoVal.str "a\nb"] c0 t0).writer.buffer =
        (New osStdout true LFNone).writer.buffer ++ [body ++ "\n"] ∧ '\n' ∉ body.data) ∧
      (∃ body, ((New osStdout true LFNone).Infof "a\nb" c0 t0).writer.buffer =
        (New osStdout true LFNone).writer.buffer ++ [body ++ "\n"] ∧ '\n' ∉ body.data) ∧
      ((New osStdout true LFNone).DebugMode = true →
        ∃ body, ((New osStdout true LFNone).Debug [GoVal.str "a\nb"] c0 t0).writer.buffer =
          (New osStdout true LFNone).writer.buffer ++ [body ++ "\n"] ∧ '\n' ∉ body.data) ∧
      ((New osStdout true LFNone).DebugMode = true →
        ∃ body, ((New osStdout true LFNone).Debugf "a\nb" c0 t0).writer.buffer =
          (New osStdout true LFNone).writer.buffer ++ [body ++ "\n"] ∧ '\n' ∉ body.data) :=
  claimC4 (New osStdout true LFNone) [GoVal.str "a\nb"] "a\nb" c0 t0
    (by decide) (by decide) (by decide)

/-- C5: the header formatter applied to the flag value None returns the empty
string, for every caller-location string and timestamp. -/
theorem claimC5 (file : String) (t : Time) : fmtHeader LFNone file t = "" := rfl

end Lopher

namespace Lopher

/-- C6 counterexample: with both file bits set and caller location `/a.go`,
whose only slash is its first character, the header keeps the whole string
`/a.go ` instead of the basename `a.go `: the reduction loop never inspects
index 0. -/
theorem claimC6_cex :
    fmtHeader (LFshortfile ||| LFlongfile) "/a.go" t0 = "/a.go " ∧
      fmtHeader (LFshortfile ||| LFlongfile) "/a.go" t0 ≠ "a.go " := by
  constructor <;> decide

/-- C6 (amended): for every caller-location string containing a slash at some
position after the first character, when both file bits are set the header is
exactly the segment after the last slash followed by a space. -/
theorem claimC6 (file : String) (t : Time) (h : '/' ∈ file.data.tail) :
    ∃ pre suf, file.data = pre ++ '/' :: suf ∧ '/' ∉ suf ∧
      fmtHeader (LFshortfile ||| LFlongfile) file t = String.mk suf ++ " " := by
  rcases hd : file.data with _ | ⟨c, rest⟩
  · rw [hd] at h; simp at h
  · rw [hd] at h
    simp only [List.tail_cons] at h
    obtain ⟨r, hr⟩ := afterLastSlash_isSome h
    obtain ⟨pre, hpre, hnr⟩ := afterLastSlash_spec hr
    refine ⟨c :: pre, r, by simp [hd, hpre], hnr, ?_⟩
    have hshort : shortName file = String.mk r := by
      unfold shortName
      rw [hd]
      simp only []
      rw [hr]
    have e1 : (LFshortfile ||| LFlongfile : Nat) = 24 := rfl
    rw [fmtHeader, e1]
    norm_num [hshort, show (24 &&& (LFdate ||| LFtime ||| LFmicroseconds) : Nat) = 0 from rfl,
      show (24 &&& LFshortfile : Nat) = 16 from rfl]

/-- Witness for the amended C6 on a location whose last slash is internal. -/
theorem claimC6_w :
    ∃ pre suf, ("a/b.go" : String).data = pre ++ '/' :: suf ∧ '/' ∉ suf ∧
      fmtHeader (LFshortfile ||| LFlongfile) "a/b.go" t0 = String.mk suf ++ " " :=
  claimC6 "a/b.go" t0 (by decide)

/-- C7 counterexample: with date, time and microseconds set and nanosecond
field 1000 the header renders the fraction as `.1` (the microsecond value in
decimal, unpadded), not as the six digits `.000001` the claim requires. -/
theorem claimC7_cex :
    fmtHeader (LFdate ||| LFtime ||| LFmicroseconds) "" t1 = "2009/1/23 1:23:23.1 " ∧
      fmtHeader (LFdate ||| LFtime ||| LFmicroseconds) "" t1 ≠
        "2009/1/23 1:23:23.000001 " := by
  constructor <;> decide

/-- C7 (amended): with the date, time and microseconds bits set the header
begins with the date as year/month/day with unpadded month and day, a space,
the clock as H:M:S, then a dot followed by the decimal digits of the
nanosecond field divided by 1000 without zero padding, then a trailing
space. -/
theorem claimC7 (flags : Nat) (file : String) (t : Time)
    (hd : flags &&& LFdate ≠ 0) (ht : flags &&& LFtime ≠ 0)
    (hm : flags &&& LFmicroseconds ≠ 0) :
    ∃ rest, fmtHeader flags file t =
      toString (zoneWall flags t).year ++ "/" ++ toString (zoneWall flags t).month ++ "/" ++
        toString (zoneWall flags t).day ++ " " ++ toString (zoneWall flags t).hour ++ ":" ++
        toString (zoneWall flags t).minute ++ ":" ++ toString (zoneWall flags t).second ++
        "." ++ toString ((zoneWall flags t).nanosecond / 1000) ++ " " ++ rest := by
  have h0 : ¬ flags = 0 := ne_zero_of_and_ne_zero hd
  have hdt : flags &&& (LFdate ||| LFtime ||| LFmicroseconds) ≠ 0 :=
    and_lor_ne_zero_left (and_lor_ne_zero_left hd)
  refine ⟨if flags &&& (LFshortfile ||| LFlongfile) ≠ 0 then
      (if flags &&& LFshortfile ≠ 0 then shortName file else file) ++ " " else "", ?_⟩
  rw [fmtHeader, if_neg h0]
  by_cases hu : flags &&& LFUTC = 0 <;>
  · apply String.ext
    simp [zoneWall, Time.UTC, hu, hdt, ht, hm, String.data_append]

/-- Witness for the amended C7 at concrete flags and timestamp. -/
theorem claimC7_w :
    ∃ rest, fmtHeader (LFdate ||| LFtime ||| LFmicroseconds) "" t1 =
      toString (zoneWall (LFdate ||| LFtime ||| LFmicroseconds) t1).year ++ "/" ++
        toString (zoneWall (LFdate ||| LFtime ||| LFmicroseconds) t1).month ++ "/" ++
        toString (zoneWall (LFdate ||| LFtime ||| LFmicroseconds) t1).day ++ " " ++
        toString (zoneWall (LFdate ||| LFtime ||| LFmicroseconds) t1).hour ++ ":" ++
        toString (zoneWall (LFdate ||| LFtime ||| LFmicroseconds) t1).minute ++ ":" ++
        toString (zoneWall (LFdate ||| LFtime ||| LFmicroseconds) t1).second ++
        "." ++ toString ((zoneWall (LFdate ||| LFtime ||| LFmicroseconds) t1).nanosecond / 1000) ++
        " " ++ rest :=
  claimC7 (LFdate ||| LFtime ||| LFmicroseconds) "" t1 (by decide) (by decide) (by decide)

/-- C8: the package-level functions behave exactly like the corresponding
methods on the default Logger, which is constructed with standard output,
debug disabled and standard flags, where the standard flags are
date, time, UTC and long-file, and None is zero. -/
theorem claimC8 :
    (∀ s v c now, Info s v c now = Log.Info s v c now) ∧
      (∀ s msg c now, Infof s msg c now = Log.Infof s msg c now) ∧
      (∀ s v c now, Debug s v c now = Log.Debug s v c now) ∧
      (∀ s msg c now, Debugf s msg c now = Log.Debugf s msg c now) ∧
      (∀ s w, SetOutput s w = Log.SetOutput s w) ∧
      (∀ s f, SetFlags s f = Log.SetFlags s f) ∧
      (∀ s b, SetDebug s b = Log.SetDebug s b) ∧
      defaultLogger = New osStdout false LFstdFlags ∧
      defaultLogger.writer = osStdout ∧
      defaultLogger.DebugMode = false ∧
      defaultLogger.Flags = LFstdFlags ∧
      LFstdFlags = LFdate ||| LFtime ||| LFUTC ||| LFlongfile ∧
      LFNone = 0 :=
  ⟨fun _ _ _ _ => rfl, fun _ _ _ _ => rfl, fun _ _ _ _ => rfl, fun _ _ _ _ => rfl,
   fun _ _ => rfl, fun _ _ => rfl, fun _ _ => rfl, rfl, rfl, rfl, rfl, rfl, rfl⟩

/-- C9: `SetFlags` is idempotent: applying it twice with the same flags
yields the same logger state as applying it once, so all subsequent emitted
output is identical. -/
theorem claimC9 (l : Log) (f : Nat) :
    (l.SetFlags f).SetFlags f = l.SetFlags f ∧
      ∀ v c now, ((l.SetFlags f).SetFlags f).Info v c now = (l.SetFlags f).Info v c now := by
  constructor
  · rfl
  · intro v c now; rfl

/-- C10: when the microseconds bit is set but the time bit is not, the header
renders the date segment (it begins with year/month/day and a space) but
neither a clock nor a microsecond fraction: the header does not depend on the
hour, minute, second or nanosecond fields at all. -/
theorem claimC10 (flags : Nat) (file : String) (t : Time)
    (hm : flags &&& LFmicroseconds ≠ 0) (ht : flags &&& LFtime = 0) :
    (∃ rest, fmtHeader flags file t =
        toString (zoneWall flags t).year ++ "/" ++ toString (zoneWall flags t).month ++ "/" ++
          toString (zoneWall flags t).day ++ " " ++ rest) ∧
      ∀ h mi s ns, fmtHeader flags file (t.withClock h mi s ns) = fmtHeader flags file t := by
  have h0 : ¬ flags = 0 := ne_zero_of_and_ne_zero hm
  have hdt : flags &&& (LFdate ||| LFtime ||| LFmicroseconds) ≠ 0 :=
    and_lor_ne_zero_right hm
  constructor
  · refine ⟨if flags &&& (LFshortfile ||| LFlongfile) ≠ 0 then
        (if flags &&& LFshortfile ≠ 0 then shortName file else file) ++ " " else "", ?_⟩
    rw [fmtHeader, if_neg h0]
    by_cases hu : flags &&& LFUTC = 0 <;>
    · apply String.ext
      simp [zoneWall, Time.UTC, hu, hdt, ht, String.data_append]
  · intro h mi s ns
    rw [fmtHeader, fmtHeader, if_neg h0, if_neg h0]
    by_cases hu : flags &&& LFUTC = 0 <;>
    · simp [Time.withClock, Time.UTC, hu, hdt, ht]

/-- Witness for C10 at the microseconds-only flag value. -/
theorem claimC10_w :
    (∃ rest, fmtHeader LFmicroseconds "f.go" t1 =
        toString (zoneWall LFmicroseconds t1).year ++ "/" ++
          toString (zoneWall LFmicroseconds t1).month ++ "/" ++
          toString (zoneWall LFmicroseconds t1).day ++ " " ++ rest) ∧
      ∀ h mi s ns, fmtHeader LFmicroseconds "f.go" (t1.withClock h mi s ns) =
        fmtHeader LFmicroseconds "f.go" t1 :=
  claimC10 LFmicroseconds "f.go" t1 (by decide) (by decide)

end Lopher
